import Mathlib

/-!
Verification development for the SillyTavern Smart Dialogue Colorizer
extension.  The color pipeline of `src/color-utils.js` and the cache and
contrast logic of `src/index.js` are embedded shallowly: JavaScript numbers
become rationals (all arithmetic used by the pipeline is exact rational
arithmetic), JavaScript `Map`s and plain objects become insertion-ordered
association lists, and the asynchronous extraction flow becomes explicit
state passing with extractor outcomes supplied as `Except` parameters.
-/

namespace SDC

/-- An RGB triple; the source passes colors as `[r, g, b]` arrays with
channels in 0..255.  Channels are modelled as rationals, as JavaScript
numbers behave rationally on all operations used here. -/
abbrev RGB := ℚ × ℚ × ℚ

/-- HSL record returned by `rgbToHsl` in `color-utils.js`
(h in 0..360, s and l in 0..100). -/
structure HSL where
  h : ℚ
  s : ℚ
  l : ℚ
deriving DecidableEq

/-- Embedding of `rgbToHsl` from `src/color-utils.js` (lines 18-39).
The JavaScript `switch (max)` statement matches the first case whose value
equals `max`, i.e. `r` is tried before `g` before `b`. -/
def rgbToHsl (r g b : ℚ) : HSL :=
  let r := r / 255
  let g := g / 255
  let b := b / 255
  let maxc := max r (max g b)
  let minc := min r (min g b)
  let l := (maxc + minc) / 2
  if maxc = minc then
    { h := 0 * 360, s := 0 * 100, l := l * 100 }
  else
    let d := maxc - minc
    let s := if l > 1/2 then d / (2 - maxc - minc) else d / (maxc + minc)
    let h :=
      if maxc = r then ((g - b) / d + (if g < b then 6 else 0)) / 6
      else if maxc = g then ((b - r) / d + 2) / 6
      else ((r - g) / d + 4) / 6
    { h := h * 360, s := s * 100, l := l * 100 }

/-- Embedding of `classifyColor` from `src/color-utils.js` (lines 48-64).
An empty `lightnessType` string is falsy in JavaScript, so the template
concatenation is only used when a band prefix exists. -/
def classifyColor (r g b : ℚ) : String :=
  let hsl := rgbToHsl r g b
  let saturation := hsl.s
  let lightness := hsl.l
  let isVibrant := saturation > 40
  let vibrancyType := if isVibrant then "Vibrant" else "Muted"
  let lightnessType :=
    if lightness < 40 then "Dark"
    else if lightness > 60 then "Light"
    else ""
  if lightnessType ≠ "" then lightnessType ++ vibrancyType else vibrancyType

/-- Embedding of `isColorQualityGood` from `src/color-utils.js`
(lines 240-263).  The `if (!rgb) return false` null guard is dropped:
every call site passes a concrete `[r, g, b]` array. -/
def isColorQualityGood (rgb : RGB) : Bool :=
  let r := rgb.1
  let g := rgb.2.1
  let b := rgb.2.2
  let luminance := (0.299 * r + 0.587 * g + 0.114 * b) / 255
  if luminance < 0.15 ∨ luminance > 0.95 then false
  else
    let maxc := max r (max g b) / 255
    let minc := min r (min g b) / 255
    let saturation := if maxc = 0 then 0 else (maxc - minc) / maxc
    if saturation < 0.2 then false
    else true

/-- The six category names, written as the spec lists them. -/
def sixCategories : List String :=
  ["Vibrant", "DarkVibrant", "LightVibrant", "Muted", "DarkMuted", "LightMuted"]

/-- Lightness band from the spec sentence: `<40 → Dark`, `>60 → Light`,
else neutral (no band prefix). -/
def specLightnessBand (lightness : ℚ) : String :=
  if lightness < 40 then "Dark" else if lightness > 60 then "Light" else ""

/-- Vibrancy type from the spec sentence: `isVibrant = saturation(%) > 40`. -/
def specVibrancyType (saturation : ℚ) : String :=
  if saturation > 40 then "Vibrant" else "Muted"

/-- Luminance formula from the spec sentence for the quality test:
`0.299R+0.587G+0.114B` (channels 0-255) normalized to `[0,1]`. -/
def specLuminance (rgb : RGB) : ℚ :=
  (0.299 * rgb.1 + 0.587 * rgb.2.1 + 0.114 * rgb.2.2) / 255

/-- Saturation formula from the spec sentence for the quality test:
`(max−min)/max` over normalized channels, `0` when `max` is `0`. -/
def specSaturation (rgb : RGB) : ℚ :=
  let mx := max (rgb.1 / 255) (max (rgb.2.1 / 255) (rgb.2.2 / 255))
  let mn := min (rgb.1 / 255) (min (rgb.2.1 / 255) (rgb.2.2 / 255))
  if mx = 0 then 0 else (mx - mn) / mx

/-- Division by a fixed positive constant commutes with `max`. -/
theorem max_div_255 (a b : ℚ) : max a b / 255 = max (a / 255) (b / 255) := by
  rcases le_total a b with h | h
  · rw [max_eq_right h, max_eq_right (by linarith : a / 255 ≤ b / 255)]
  · rw [max_eq_left h, max_eq_left (by linarith : b / 255 ≤ a / 255)]

/-- Division by a fixed positive constant commutes with `min`. -/
theorem min_div_255 (a b : ℚ) : min a b / 255 = min (a / 255) (b / 255) := by
  rcases le_total a b with h | h
  · rw [min_eq_left h, min_eq_left (by linarith : a / 255 ≤ b / 255)]
  · rw [min_eq_right h, min_eq_right (by linarith : b / 255 ≤ a / 255)]

/-- C5: the quality test accepts an RGB triple with channels in `[0,255]`
iff its luminance `(0.299r+0.587g+0.114b)/255` is neither below `0.15`
nor above `0.95` and its saturation `(max−min)/max` over normalized
channels (`0` when the max is `0`) is at least `0.2`; in particular
RGB `(10,10,10)` is rejected and RGB `(128,64,64)` is accepted. -/
theorem quality_good_iff :
    (∀ r g b : ℚ, 0 ≤ r → r ≤ 255 → 0 ≤ g → g ≤ 255 → 0 ≤ b → b ≤ 255 →
      (isColorQualityGood (r, g, b) = true ↔
        ¬(specLuminance (r, g, b) < 0.15 ∨ specLuminance (r, g, b) > 0.95) ∧
          specSaturation (r, g, b) ≥ 0.2)) ∧
    isColorQualityGood (10, 10, 10) = false ∧
    isColorQualityGood (128, 64, 64) = true := by
  refine ⟨?_, ?_, ?_⟩
  case refine_2 =>
    have hmax : max (10:ℚ) (max 10 10) = 10 := by rw [max_self, max_self]
    simp only [isColorQualityGood, hmax]
    norm_num
  case refine_3 =>
    have hmax : max (128:ℚ) (max 64 64) = 128 := by
      rw [max_self]; exact max_eq_left (by norm_num)
    have hmin : min (128:ℚ) (min 64 64) = 64 := by
      rw [min_self]; exact min_eq_right (by norm_num)
    simp only [isColorQualityGood, hmax, hmin]
    norm_num
  intro r g b _ _ _ _ _ _
  simp only [isColorQualityGood, specLuminance, specSaturation,
    max_div_255, min_div_255]
  constructor
  · intro h
    by_cases hl : (0.299 * r + 0.587 * g + 0.114 * b) / 255 < 0.15 ∨
        (0.299 * r + 0.587 * g + 0.114 * b) / 255 > 0.95
    · simp [hl] at h
    · simp only [hl, if_false] at h
      refine ⟨hl, ?_⟩
      by_cases hs : (if max (r / 255) (max (g / 255) (b / 255)) = 0 then (0:ℚ)
          else (max (r / 255) (max (g / 255) (b / 255)) -
            min (r / 255) (min (g / 255) (b / 255))) /
              max (r / 255) (max (g / 255) (b / 255))) < 0.2
      · simp [hs] at h
      · exact le_of_not_lt hs
  · rintro ⟨hl, hs⟩
    simp only [hl, if_false, if_neg (not_lt.mpr hs)]

/-- C5 witness: instantiates the range-guarded equivalence at the
concrete triple `(128, 64, 64)`. -/
theorem quality_good_iff_witness :
    isColorQualityGood (128, 64, 64) = true := by
  have hmax : max ((128:ℚ)/255) (max (64/255) (64/255)) = 128/255 := by
    rw [max_self]; exact max_eq_left (by norm_num)
  have hmin : min ((128:ℚ)/255) (min (64/255) (64/255)) = 64/255 := by
    rw [min_self]; exact min_eq_right (by norm_num)
  exact (quality_good_iff.1 128 64 64 (by norm_num) (by norm_num) (by norm_num)
    (by norm_num) (by norm_num) (by norm_num)).mpr
    (by constructor
        · norm_num [specLuminance]
        · simp only [specSaturation, hmax, hmin]; norm_num)

/-- C6: classification is deterministic and total: every RGB triple maps to
exactly one of the six categories, computed from its HSL as the
concatenation of the lightness band (`Dark` if lightness(%) < 40, `Light`
if lightness(%) > 60, no prefix otherwise) and the vibrancy type
(`Vibrant` if saturation(%) > 40, `Muted` otherwise). -/
theorem classify_total_six :
    ∀ r g b : ℚ,
      classifyColor r g b =
        specLightnessBand (rgbToHsl r g b).l ++ specVibrancyType (rgbToHsl r g b).s ∧
      classifyColor r g b ∈ sixCategories := by
  intro r g b
  unfold classifyColor specLightnessBand specVibrancyType sixCategories
  rcases lt_or_le (rgbToHsl r g b).l 40 with hl | hl
  · rcases lt_or_le 40 (rgbToHsl r g b).s with hs | hs
    · simp [hl, hs]
    · simp [hl, not_lt.mpr hs]
  · rcases lt_or_le 60 (rgbToHsl r g b).l with hl2 | hl2
    · rcases lt_or_le 40 (rgbToHsl r g b).s with hs | hs
      · simp [not_lt.mpr hl, hl2, hs]
      · simp [not_lt.mpr hl, hl2, not_lt.mpr hs]
    · rcases lt_or_le 40 (rgbToHsl r g b).s with hs | hs
      · simp [not_lt.mpr hl, not_lt.mpr hl2, hs]
      · simp [not_lt.mpr hl, not_lt.mpr hl2, not_lt.mpr hs]

/-- A swatch: an RGB color plus an optional pixel population.  Vibrant.js
swatches expose `getRgb` and `getPopulation`; the mock swatches built by
`getColorThiefSwatches` expose `getRgb` and `getHex` but no
`getPopulation`, modelled here as `population = none`. -/
structure Swatch where
  rgb : RGB
  population : Option ℚ
deriving DecidableEq

/-- A swatch dictionary, keyed by the six category names used by
`requiredSwatches` and `swatchPriority` in `src/color-utils.js`. -/
structure SwatchSet where
  vibrant : Option Swatch
  darkVibrant : Option Swatch
  lightVibrant : Option Swatch
  muted : Option Swatch
  darkMuted : Option Swatch
  lightMuted : Option Swatch
deriving DecidableEq

/-- The empty swatch dictionary (`{}` in the source). -/
def SwatchSet.empty : SwatchSet := ⟨none, none, none, none, none, none⟩

/-- Dictionary lookup `swatches[name]` for the six category keys. -/
def SwatchSet.get (ss : SwatchSet) (name : String) : Option Swatch :=
  if name = "Vibrant" then ss.vibrant
  else if name = "DarkVibrant" then ss.darkVibrant
  else if name = "LightVibrant" then ss.lightVibrant
  else if name = "Muted" then ss.muted
  else if name = "DarkMuted" then ss.darkMuted
  else if name = "LightMuted" then ss.lightMuted
  else none

/-- Dictionary assignment `swatches[name] = sw` for the six category keys. -/
def SwatchSet.set (ss : SwatchSet) (name : String) (sw : Swatch) : SwatchSet :=
  if name = "Vibrant" then { ss with vibrant := some sw }
  else if name = "DarkVibrant" then { ss with darkVibrant := some sw }
  else if name = "LightVibrant" then { ss with lightVibrant := some sw }
  else if name = "Muted" then { ss with muted := some sw }
  else if name = "DarkMuted" then { ss with darkMuted := some sw }
  else if name = "LightMuted" then { ss with lightMuted := some sw }
  else ss

/-- The `Object.values(swatches)` view used by
`getAverageColorFromSwatches`; summation below is order-independent, so
the field order stands in for the key insertion order of the object. -/
def SwatchSet.values (ss : SwatchSet) : List (Option Swatch) :=
  [ss.vibrant, ss.darkVibrant, ss.lightVibrant, ss.muted, ss.darkMuted, ss.lightMuted]

/-- The `requiredSwatches` list from `getSwatchesFromImage`
(`src/color-utils.js` lines 181-184). -/
def requiredSwatches : List String :=
  ["Vibrant", "DarkVibrant", "LightVibrant", "Muted", "DarkMuted", "LightMuted"]

/-- The `swatchPriority` list from `getSmartAvatarColor`
(`src/color-utils.js` line 318). -/
def swatchPriority : List String :=
  ["Vibrant", "DarkVibrant", "LightVibrant", "Muted", "DarkMuted", "LightMuted"]

/-- One iteration of the palette loop in `getColorThiefSwatches`
(`src/color-utils.js` lines 133-149): classify the color and assign it to
its category slot only if that category has not been used yet.  The
accumulator carries `classifiedSwatches` and the `usedCategories` set
(as a list). -/
def ctStep (acc : SwatchSet × List String) (color : RGB) : SwatchSet × List String :=
  let classification := classifyColor color.1 color.2.1 color.2.2
  if classification ≠ "" ∧ classification ∉ acc.2 then
    (acc.1.set classification ⟨color, none⟩, acc.2 ++ [classification])
  else acc

/-- Embedding of `getColorThiefSwatches` from `src/color-utils.js`
(lines 118-152).  The Color Thief `getPalette` call is abstracted as the
input: `none` models a null/non-array return value, and an empty list
models an empty palette; both make the function throw. -/
def getColorThiefSwatches (palette : Option (List RGB)) : Except String SwatchSet :=
  match palette with
  | none => .error "[SDC] Color Thief failed to extract palette from image"
  | some colors =>
    if colors.length = 0 then
      .error "[SDC] Color Thief failed to extract palette from image"
    else
      .ok (colors.foldl ctStep (SwatchSet.empty, [])).1

/-- The `isMissingSwatches` check from `getSwatchesFromImage`
(`src/color-utils.js` line 187). -/
def isMissingSwatches (swatches : SwatchSet) : Bool :=
  requiredSwatches.any (fun swatchName => (swatches.get swatchName).isNone)

/-- One iteration of the merge loop in `getSwatchesFromImage`
(`src/color-utils.js` lines 199-204): fill a required slot from the
Color Thief swatches only when the original slot is empty. -/
def mergeStep (colorThiefSwatches : SwatchSet) (merged : SwatchSet) (swatchName : String) :
    SwatchSet :=
  match merged.get swatchName, colorThiefSwatches.get swatchName with
  | none, some sw => merged.set swatchName sw
  | _, _ => merged

/-- The merge of `getSwatchesFromImage` (`src/color-utils.js` lines
196-207): start from the Vibrant.js `swatches` and fill each required
category missing from it with the Color Thief swatch if present. -/
def mergeSwatches (swatches colorThiefSwatches : SwatchSet) : SwatchSet :=
  requiredSwatches.foldl (mergeStep colorThiefSwatches) swatches

/-- JavaScript `Math.round` on the rationals produced here: round half
toward positive infinity. -/
def jsRound (q : ℚ) : ℚ := ((⌊q + 1/2⌋ : ℤ) : ℚ)

/-- Loop body of `getAverageColorFromSwatches` (`src/color-utils.js`
lines 283-291): weight each color channel by the swatch population,
defaulting the population to 1 when `getPopulation` is undefined. -/
def avgStep (acc : ℚ × ℚ × ℚ × ℚ) (swatch : Swatch) : ℚ × ℚ × ℚ × ℚ :=
  let population := swatch.population.getD 1
  (acc.1 + swatch.rgb.1 * population,
   acc.2.1 + swatch.rgb.2.1 * population,
   acc.2.2.1 + swatch.rgb.2.2 * population,
   acc.2.2.2 + population)

/-- Embedding of `getAverageColorFromSwatches` from `src/color-utils.js`
(lines 272-303): filter the present swatches, accumulate
population-weighted channel totals and the total population, replace a
zero total population by 1, and round each averaged channel. -/
def getAverageColorFromSwatches (swatches : SwatchSet) : Option RGB :=
  let validSwatches := swatches.values.filterMap id
  if validSwatches.length = 0 then none
  else
    let totals := validSwatches.foldl avgStep (0, 0, 0, 0)
    let totalPopulation := if totals.2.2.2 = 0 then 1 else totals.2.2.2
    some (jsRound (totals.1 / totalPopulation),
          jsRound (totals.2.1 / totalPopulation),
          jsRound (totals.2.2.1 / totalPopulation))

/-- The priority loop of `getSmartAvatarColor` (`src/color-utils.js`
lines 320-328): return the RGB of the first present swatch that passes
the quality test. -/
def trySwatches : List String → SwatchSet → Option RGB
  | [], _ => none
  | swatchName :: rest, swatches =>
    match swatches.get swatchName with
    | some swatch =>
      if isColorQualityGood swatch.rgb then some swatch.rgb
      else trySwatches rest swatches
    | none => trySwatches rest swatches

/-- The pure selection performed by `getSmartAvatarColor`
(`src/color-utils.js` lines 314-332) once the swatch dictionary for the
image is available: the priority loop, then the population-weighted
average fallback. -/
def selectSmartColor (swatches : SwatchSet) : Option RGB :=
  match trySwatches swatchPriority swatches with
  | some rgb => some rgb
  | none => getAverageColorFromSwatches swatches

/-- Selection as the claim words it: the first present swatch, in the
fixed priority order, that passes the quality test. -/
def specFirstGoodSwatch (ss : SwatchSet) : Option RGB :=
  ((swatchPriority.filterMap ss.get).find? (fun sw => isColorQualityGood sw.rgb)).map Swatch.rgb

/-- All present swatches of a swatch dictionary. -/
def specPresentSwatches (ss : SwatchSet) : List Swatch :=
  ss.values.filterMap id

/-- Average as the claim words it: the RGB of each swatch weighted by its
population, divided by the total population, the total defaulting to 1
when it is zero. -/
def specWeightedAverage (ss : SwatchSet) : RGB :=
  let present := specPresentSwatches ss
  let total := (present.map (fun s => s.population.getD 1)).sum
  let divisor := if total = 0 then 1 else total
  (jsRound ((present.map (fun s => s.rgb.1 * s.population.getD 1)).sum / divisor),
   jsRound ((present.map (fun s => s.rgb.2.1 * s.population.getD 1)).sum / divisor),
   jsRound ((present.map (fun s => s.rgb.2.2 * s.population.getD 1)).sum / divisor))

/-- Selection policy as the claim words it: the first present quality
swatch, else the population-weighted average without quality filtering,
else no color when the swatch dictionary is empty. -/
def specSelect (ss : SwatchSet) : Option RGB :=
  match specFirstGoodSwatch ss with
  | some rgb => some rgb
  | none =>
    if specPresentSwatches ss = [] then none
    else some (specWeightedAverage ss)

/-- The priority loop returns the first present swatch passing the
quality test, phrased with `List.find?`. -/
theorem trySwatches_eq_find (names : List String) (ss : SwatchSet) :
    trySwatches names ss =
      ((names.filterMap ss.get).find? (fun sw => isColorQualityGood sw.rgb)).map Swatch.rgb := by
  induction names with
  | nil => rfl
  | cons name rest ih =>
    cases h : ss.get name with
    | none => simp [trySwatches, h, List.filterMap_cons, ih]
    | some sw =>
      cases hq : isColorQualityGood sw.rgb with
      | true => simp [trySwatches, h, hq, List.filterMap_cons, List.find?_cons]
      | false => simp [trySwatches, h, hq, List.filterMap_cons, List.find?_cons, ih]

/-- The accumulation loop of `getAverageColorFromSwatches` computes the
four population-weighted sums. -/
theorem foldl_avgStep (l : List Swatch) (a b c d : ℚ) :
    l.foldl avgStep (a, b, c, d) =
      (a + (l.map (fun s => s.rgb.1 * s.population.getD 1)).sum,
       b + (l.map (fun s => s.rgb.2.1 * s.population.getD 1)).sum,
       c + (l.map (fun s => s.rgb.2.2 * s.population.getD 1)).sum,
       d + (l.map (fun s => s.population.getD 1)).sum) := by
  induction l generalizing a b c d with
  | nil => simp
  | cons s t ih => simp [List.foldl_cons, avgStep, ih, add_assoc]

/-- The average fallback matches the weighted-average formula of the claim and
returns no color exactly when no swatch is present. -/
theorem average_eq_spec (ss : SwatchSet) :
    getAverageColorFromSwatches ss =
      if specPresentSwatches ss = [] then none else some (specWeightedAverage ss) := by
  unfold getAverageColorFromSwatches specWeightedAverage specPresentSwatches
  rcases h : ss.values.filterMap id with _ | ⟨s, t⟩
  · simp [h]
  · simp only [h, List.length_cons, Nat.succ_ne_zero, if_false, foldl_avgStep, zero_add]
    simp

/-- C3: given the swatch dictionary obtained for an image, the selection
of `getSmartAvatarColor` tries the categories in the fixed priority order
Vibrant, DarkVibrant, LightVibrant, Muted, DarkMuted, LightMuted and
returns the RGB of the first present swatch passing the quality test; if
none passes it returns the population-weighted average over all present
swatches (total population defaulting to 1 when zero) without quality
filtering; and it returns no color when the dictionary is empty. -/
theorem select_smart_color_spec :
    ∀ ss : SwatchSet, selectSmartColor ss = specSelect ss := by
  intro ss
  unfold selectSmartColor specSelect specFirstGoodSwatch
  rw [trySwatches_eq_find]
  cases ((swatchPriority.filterMap ss.get).find?
      (fun sw => isColorQualityGood sw.rgb)).map Swatch.rgb with
  | some rgb => rfl
  | none => simpa using average_eq_spec ss

/-- Lookup after assignment, for a lookup key among the six categories. -/
theorem SwatchSet.get_set (m : SwatchSet) (name c : String) (sw : Swatch)
    (hc : c ∈ requiredSwatches) :
    (m.set name sw).get c = if name = c then some sw else m.get c := by
  simp only [requiredSwatches, List.mem_cons, List.not_mem_nil, or_false] at hc
  rcases hc with rfl | rfl | rfl | rfl | rfl | rfl <;>
  · by_cases h1 : name = "Vibrant"
    · subst h1; simp [SwatchSet.set, SwatchSet.get]
    · by_cases h2 : name = "DarkVibrant"
      · subst h2; simp [SwatchSet.set, SwatchSet.get]
      · by_cases h3 : name = "LightVibrant"
        · subst h3; simp [SwatchSet.set, SwatchSet.get]
        · by_cases h4 : name = "Muted"
          · subst h4; simp [SwatchSet.set, SwatchSet.get]
          · by_cases h5 : name = "DarkMuted"
            · subst h5; simp [SwatchSet.set, SwatchSet.get]
            · by_cases h6 : name = "LightMuted"
              · subst h6; simp [SwatchSet.set, SwatchSet.get]
              · simp [SwatchSet.set, SwatchSet.get, h1, h2, h3, h4, h5, h6]

/-- The empty swatch dictionary has no entry at any key. -/
theorem SwatchSet.get_empty (c : String) : SwatchSet.empty.get c = none := by
  unfold SwatchSet.empty SwatchSet.get
  split_ifs <;> rfl

/-- Every classification lands in the required-category list. -/
theorem classifyColor_mem_required (r g b : ℚ) :
    classifyColor r g b ∈ requiredSwatches := by
  unfold classifyColor requiredSwatches
  rcases lt_or_le (rgbToHsl r g b).l 40 with hl | hl
  · rcases lt_or_le 40 (rgbToHsl r g b).s with hs | hs
    · simp [hl, hs]
    · simp [hl, not_lt.mpr hs]
  · rcases lt_or_le 60 (rgbToHsl r g b).l with hl2 | hl2
    · rcases lt_or_le 40 (rgbToHsl r g b).s with hs | hs
      · simp [not_lt.mpr hl, hl2, hs]
      · simp [not_lt.mpr hl, hl2, not_lt.mpr hs]
    · rcases lt_or_le 40 (rgbToHsl r g b).s with hs | hs
      · simp [not_lt.mpr hl, not_lt.mpr hl2, hs]
      · simp [not_lt.mpr hl, not_lt.mpr hl2, not_lt.mpr hs]

/-- No classification is the empty string. -/
theorem classifyColor_ne_empty (r g b : ℚ) : classifyColor r g b ≠ "" := by
  have h := classifyColor_mem_required r g b
  simp only [requiredSwatches, List.mem_cons, List.not_mem_nil, or_false] at h
  rcases h with h | h | h | h | h | h <;> simp [h]

/-- Merging at the handled category: the original slot wins, otherwise the
Color Thief slot fills the gap. -/
theorem mergeStep_get_same (ct m : SwatchSet) (c : String) (hc : c ∈ requiredSwatches) :
    (mergeStep ct m c).get c = if (m.get c).isSome then m.get c else ct.get c := by
  unfold mergeStep
  cases hm : m.get c with
  | some sw => simp [hm]
  | none =>
    cases hct : ct.get c with
    | some sw => simp [hm, hct, SwatchSet.get_set _ _ _ _ hc]
    | none => simp [hm, hct]

/-- A merge step at a different category leaves a slot unchanged. -/
theorem mergeStep_get_ne (ct m : SwatchSet) (name c : String)
    (hc : c ∈ requiredSwatches) (h : name ≠ c) :
    (mergeStep ct m name).get c = m.get c := by
  unfold mergeStep
  cases hm : m.get name with
  | some sw => simp
  | none =>
    cases hct : ct.get name with
    | some sw => simp [SwatchSet.get_set _ _ _ _ hc, h]
    | none => simp

/-- The merge loop, slot by slot: an original slot is never replaced, and
each required slot missing from the original dictionary is copied from
the Color Thief dictionary when present. -/
theorem mergeSwatches_get (p f : SwatchSet) (c : String) (hc : c ∈ requiredSwatches) :
    (mergeSwatches p f).get c = if (p.get c).isSome then p.get c else f.get c := by
  simp only [mergeSwatches, requiredSwatches, List.foldl_cons, List.foldl_nil]
  simp only [requiredSwatches, List.mem_cons, List.not_mem_nil, or_false] at hc
  rcases hc with rfl | rfl | rfl | rfl | rfl | rfl
  · rw [mergeStep_get_ne _ _ _ _ (by decide) (by decide),
      mergeStep_get_ne _ _ _ _ (by decide) (by decide),
      mergeStep_get_ne _ _ _ _ (by decide) (by decide),
      mergeStep_get_ne _ _ _ _ (by decide) (by decide),
      mergeStep_get_ne _ _ _ _ (by decide) (by decide),
      mergeStep_get_same _ _ _ (by decide)]
  · rw [mergeStep_get_ne _ _ _ _ (by decide) (by decide),
      mergeStep_get_ne _ _ _ _ (by decide) (by decide),
      mergeStep_get_ne _ _ _ _ (by decide) (by decide),
      mergeStep_get_ne _ _ _ _ (by decide) (by decide),
      mergeStep_get_same _ _ _ (by decide),
      mergeStep_get_ne _ _ _ _ (by decide) (by decide)]
  · rw [mergeStep_get_ne _ _ _ _ (by decide) (by decide),
      mergeStep_get_ne _ _ _ _ (by decide) (by decide),
      mergeStep_get_ne _ _ _ _ (by decide) (by decide),
      mergeStep_get_same _ _ _ (by decide),
      mergeStep_get_ne _ _ _ _ (by decide) (by decide),
      mergeStep_get_ne _ _ _ _ (by decide) (by decide)]
  · rw [mergeStep_get_ne _ _ _ _ (by decide) (by decide),
      mergeStep_get_ne _ _ _ _ (by decide) (by decide),
      mergeStep_get_same _ _ _ (by decide),
      mergeStep_get_ne _ _ _ _ (by decide) (by decide),
      mergeStep_get_ne _ _ _ _ (by decide) (by decide),
      mergeStep_get_ne _ _ _ _ (by decide) (by decide)]
  · rw [mergeStep_get_ne _ _ _ _ (by decide) (by decide),
      mergeStep_get_same _ _ _ (by decide),
      mergeStep_get_ne _ _ _ _ (by decide) (by decide),
      mergeStep_get_ne _ _ _ _ (by decide) (by decide),
      mergeStep_get_ne _ _ _ _ (by decide) (by decide),
      mergeStep_get_ne _ _ _ _ (by decide) (by decide)]
  · rw [mergeStep_get_same _ _ _ (by decide),
      mergeStep_get_ne _ _ _ _ (by decide) (by decide),
      mergeStep_get_ne _ _ _ _ (by decide) (by decide),
      mergeStep_get_ne _ _ _ _ (by decide) (by decide),
      mergeStep_get_ne _ _ _ _ (by decide) (by decide),
      mergeStep_get_ne _ _ _ _ (by decide) (by decide)]

/-- The classification loop of `getColorThiefSwatches` keeps, for every
category, only the first palette color classified into it.  The invariant
relates the used-category list with the filled slots. -/
theorem ctFold_get (palette : List RGB) (acc : SwatchSet × List String)
    (hsync : ∀ c ∈ requiredSwatches, ((acc.1.get c).isSome ↔ c ∈ acc.2))
    (c : String) (hc : c ∈ requiredSwatches) :
    (palette.foldl ctStep acc).1.get c =
      if (acc.1.get c).isSome then acc.1.get c
      else (palette.find? (fun col => classifyColor col.1 col.2.1 col.2.2 = c)).map
        (fun col => ⟨col, none⟩) := by
  induction palette generalizing acc with
  | nil =>
    cases h : acc.1.get c <;> simp [h]
  | cons col rest ih =>
    rw [List.foldl_cons]
    have hclne : classifyColor col.1 col.2.1 col.2.2 ≠ "" :=
      classifyColor_ne_empty col.1 col.2.1 col.2.2
    by_cases hcl : classifyColor col.1 col.2.1 col.2.2 = c
    · cases h : acc.1.get c with
      | some sw =>
        have hmem : c ∈ acc.2 := (hsync c hc).mp (by rw [h]; rfl)
        have hstep : ctStep acc col = acc := by
          simp only [ctStep, hcl]
          rw [if_neg]
          intro hcond
          exact hcond.2 hmem
        rw [hstep, ih acc hsync, h]
        simp
      | none =>
        have hmem : c ∉ acc.2 := by
          intro hx
          have hs := (hsync c hc).mpr hx
          rw [h] at hs
          simp at hs
        have hstep : ctStep acc col = (acc.1.set c ⟨col, none⟩, acc.2 ++ [c]) := by
          simp only [ctStep, hcl]
          rw [if_pos ⟨hcl ▸ hclne, hmem⟩]
        have hsync2 : ∀ x ∈ requiredSwatches,
            (((acc.1.set c ⟨col, none⟩).get x).isSome ↔ x ∈ acc.2 ++ [c]) := by
          intro x hx
          rw [SwatchSet.get_set _ _ _ _ hx, List.mem_append]
          simp only [List.mem_singleton]
          by_cases hcx : c = x
          · subst hcx
            simp
          · rw [if_neg hcx]
            constructor
            · intro hs
              exact Or.inl ((hsync x hx).mp hs)
            · rintro (hx2 | rfl)
              · exact (hsync x hx).mpr hx2
              · exact absurd rfl hcx
        rw [hstep, ih _ hsync2, SwatchSet.get_set _ _ _ _ hc, if_pos rfl]
        simp [List.find?_cons, hcl]
    · have hget : (ctStep acc col).1.get c = acc.1.get c := by
        simp only [ctStep]
        split_ifs with hcond
        · rw [SwatchSet.get_set _ _ _ _ hc, if_neg hcl]
        · rfl
      have hsync2 : ∀ x ∈ requiredSwatches, (((ctStep acc col).1.get x).isSome ↔
          x ∈ (ctStep acc col).2) := by
        intro x hx
        simp only [ctStep]
        split_ifs with hcond
        · rw [SwatchSet.get_set _ _ _ _ hx, List.mem_append]
          simp only [List.mem_singleton]
          by_cases hxcl : classifyColor col.1 col.2.1 col.2.2 = x
          · subst hxcl
            simp
          · rw [if_neg hxcl]
            constructor
            · intro hs
              exact Or.inl ((hsync x hx).mp hs)
            · rintro (hx2 | rfl)
              · exact (hsync x hx).mpr hx2
              · exact absurd rfl hxcl
        · exact hsync x hx
      rw [ih _ hsync2, hget]
      simp [List.find?_cons, hcl]

/-- C7: merging starts from the primary swatch dictionary and, for each of
the six required categories missing from it, copies in the fallback
swatch for that category when present; a category already present in the
primary dictionary is never replaced; and the fallback dictionary itself
keeps only the first palette color classified into each category, palette
order winning ties. -/
theorem merge_and_fallback_spec :
    (∀ p f : SwatchSet, ∀ c ∈ requiredSwatches,
      (mergeSwatches p f).get c = if (p.get c).isSome then p.get c else f.get c) ∧
    (∀ palette : List RGB, palette ≠ [] →
      ∃ ss, getColorThiefSwatches (some palette) = .ok ss ∧
        ∀ c ∈ requiredSwatches,
          ss.get c = (palette.find? (fun col => classifyColor col.1 col.2.1 col.2.2 = c)).map
            (fun col => ⟨col, none⟩)) := by
  constructor
  · intro p f c hc
    exact mergeSwatches_get p f c hc
  · intro palette hne
    refine ⟨(palette.foldl ctStep (SwatchSet.empty, [])).1, ?_, ?_⟩
    · simp only [getColorThiefSwatches]
      rw [if_neg (by simpa using hne)]
    · intro c hc
      rw [ctFold_get palette (SwatchSet.empty, []) ?_ c hc]
      · rw [SwatchSet.get_empty]
        simp
      · intro x hx
        rw [SwatchSet.get_empty]
        simp

/-- C7 witness: the merge law at empty dictionaries and the first-wins law
at the one-color palette `[(255, 0, 0)]`. -/
theorem merge_and_fallback_spec_witness :
    ((mergeSwatches SwatchSet.empty SwatchSet.empty).get "Vibrant" =
      if (SwatchSet.empty.get "Vibrant").isSome then SwatchSet.empty.get "Vibrant"
      else SwatchSet.empty.get "Vibrant") ∧
    (∃ ss, getColorThiefSwatches (some [((255:ℚ), (0:ℚ), (0:ℚ))]) = .ok ss ∧
      ∀ c ∈ requiredSwatches,
        ss.get c = ([((255:ℚ), (0:ℚ), (0:ℚ))].find?
          (fun col => classifyColor col.1 col.2.1 col.2.2 = c)).map
            (fun col => ⟨col, none⟩)) :=
  ⟨merge_and_fallback_spec.1 SwatchSet.empty SwatchSet.empty "Vibrant" (by decide),
   merge_and_fallback_spec.2 [((255:ℚ), (0:ℚ), (0:ℚ))] (by simp)⟩

/-- Modelled from the spec: `ExColor.rgb2hsl`, used by `makeBetterContrast`
in `src/index.js`, lives in `ExColor.js`, which is not among the provided
source files.  Per the Color Model of the spec (hue in degrees 0-360,
saturation and lightness as fractions in `[0,1]`, achromatic colors
mapping to hue 0 and saturation 0), this is the standard RGB-to-HSL
conversion. -/
def rgb2hsl (rgb : RGB) : ℚ × ℚ × ℚ :=
  let r := rgb.1 / 255
  let g := rgb.2.1 / 255
  let b := rgb.2.2 / 255
  let maxc := max r (max g b)
  let minc := min r (min g b)
  let l := (maxc + minc) / 2
  if maxc = minc then (0, 0, l)
  else
    let d := maxc - minc
    let s := if l > 1/2 then d / (2 - maxc - minc) else d / (maxc + minc)
    let hh :=
      if maxc = r then ((g - b) / d + (if g < b then 6 else 0)) / 6
      else if maxc = g then ((b - r) / d + 2) / 6
      else ((r - g) / d + 4) / 6
    (hh * 360, s, l)

/-- The HSL-space body of `makeBetterContrast` from `src/index.js`
(lines 210-251): the saturation floor, the theme-dependent lightness
correction, and the optional vibrancy boost, between the `rgb2hsl` and
`hsl2rgb` conversions (the conversions live in `ExColor.js`). -/
def makeBetterContrastHsl (hsl : ℚ × ℚ × ℚ) (boostVibrancy isLight : Bool) : ℚ × ℚ × ℚ :=
  let nHue := hsl.1
  let s := hsl.2.1
  let l := hsl.2.2
  let nSat1 := if s < 0.4 then min (s + 0.3) 0.8 else s
  let nLum :=
    if isLight then
      let nLumL := if l > 0.6 then 0.45 else if l > 0.4 then 0.4 else l
      if nLumL < 0.2 then 0.25 else nLumL
    else
      if l < 0.5 then 0.65
      else if l < 0.7 then 0.7
      else if l > 0.85 then 0.8
      else l
  let nSat := if boostVibrancy then max 0 (min 1 (nSat1 + 0.35)) else nSat1
  (nHue, nSat, nLum)

/-- Saturation handling as the claim words it: saturation below 0.4 is
raised to `min(saturation+0.3, 0.8)`, then the enabled vibrancy boost adds
0.35 clamped to `[0,1]`. -/
def specContrastSat (s : ℚ) (boost : Bool) : ℚ :=
  let floored := if s < 0.4 then min (s + 0.3) 0.8 else s
  if boost then max 0 (min 1 (floored + 0.35)) else floored

/-- Lightness correction as the claim words it, with explicit interval
bounds on the middle bands. -/
def specContrastLum (l : ℚ) (isLight : Bool) : ℚ :=
  if isLight then
    let l1 := if l > 0.6 then 0.45 else if 0.4 < l ∧ l ≤ 0.6 then 0.4 else l
    if l1 < 0.2 then 0.25 else l1
  else
    if l < 0.5 then 0.65
    else if 0.5 ≤ l ∧ l < 0.7 then 0.7
    else if l > 0.85 then 0.8
    else l

/-- The HSL adjustment agrees with the piecewise description of the claim on
every HSL input. -/
theorem makeBetterContrastHsl_eq (hq sq lq : ℚ) (boost isLight : Bool) :
    makeBetterContrastHsl (hq, sq, lq) boost isLight =
      (hq, specContrastSat sq boost, specContrastLum lq isLight) := by
  cases isLight <;> cases boost <;>
    simp only [makeBetterContrastHsl, specContrastSat, specContrastLum,
      Bool.false_eq_true, if_false, if_true] <;>
    split_ifs <;>
    first
      | rfl
      | (exfalso; simp_all only [not_and, not_lt, not_le, not_true, true_implies])

/-- C4: for every RGB triple, the contrast enhancement first raises
saturation below 0.4 to `min(saturation+0.3, 0.8)`, then corrects
lightness by theme exactly as the bands of the claim describe, then applies
the optional vibrancy boost of +0.35 saturation clamped to `[0,1]`; in
particular dark-theme input lightness 0.3 yields 0.65 and light-theme
input lightness 0.8 yields 0.45, before the conversion back to RGB. -/
theorem make_better_contrast_spec :
    (∀ r g b : ℚ, ∀ boost isLight : Bool,
      makeBetterContrastHsl (rgb2hsl (r, g, b)) boost isLight =
        ((rgb2hsl (r, g, b)).1,
         specContrastSat (rgb2hsl (r, g, b)).2.1 boost,
         specContrastLum (rgb2hsl (r, g, b)).2.2 isLight)) ∧
    (∀ hq sq : ℚ, ∀ boost : Bool,
      (makeBetterContrastHsl (hq, sq, 0.3) boost false).2.2 = 0.65) ∧
    (∀ hq sq : ℚ, ∀ boost : Bool,
      (makeBetterContrastHsl (hq, sq, 0.8) boost true).2.2 = 0.45) := by
  refine ⟨?_, ?_, ?_⟩
  · intro r g b boost isLight
    rcases hx : rgb2hsl (r, g, b) with ⟨hq, sq, lq⟩
    exact makeBetterContrastHsl_eq hq sq lq boost isLight
  · intro hq sq boost
    rw [makeBetterContrastHsl_eq]
    norm_num [specContrastLum]
  · intro hq sq boost
    rw [makeBetterContrastHsl_eq]
    norm_num [specContrastLum]

/-- The dark-theme lightness correction always lands in `[0.65, 0.85]`. -/
theorem contrastLum_dark_bounds (hq sq lq : ℚ) (boost : Bool) :
    0.65 ≤ (makeBetterContrastHsl (hq, sq, lq) boost false).2.2 ∧
      (makeBetterContrastHsl (hq, sq, lq) boost false).2.2 ≤ 0.85 := by
  cases boost <;>
    simp only [makeBetterContrastHsl, Bool.false_eq_true, if_false, if_true] <;>
    split_ifs <;> constructor <;> linarith

/-- The light-theme lightness correction always lands in `[0.2, 0.45]`. -/
theorem contrastLum_light_bounds (hq sq lq : ℚ) (boost : Bool) :
    0.2 ≤ (makeBetterContrastHsl (hq, sq, lq) boost true).2.2 ∧
      (makeBetterContrastHsl (hq, sq, lq) boost true).2.2 ≤ 0.45 := by
  cases boost <;>
    simp only [makeBetterContrastHsl, Bool.false_eq_true, if_false, if_true] <;>
    split_ifs <;> constructor <;> linarith

/-- C10: for every input RGB color and either value of the vibrancy-boost
flag, the corrected HSL lightness that `makeBetterContrast` converts back
to RGB lies in `[0.65, 0.85]` for the dark theme and in `[0.2, 0.45]`
for the light theme. -/
theorem contrast_lum_bands :
    ∀ r g b : ℚ, ∀ boost : Bool,
      (0.65 ≤ (makeBetterContrastHsl (rgb2hsl (r, g, b)) boost false).2.2 ∧
        (makeBetterContrastHsl (rgb2hsl (r, g, b)) boost false).2.2 ≤ 0.85) ∧
      (0.2 ≤ (makeBetterContrastHsl (rgb2hsl (r, g, b)) boost true).2.2 ∧
        (makeBetterContrastHsl (rgb2hsl (r, g, b)) boost true).2.2 ≤ 0.45) := by
  intro r g b boost
  rcases hx : rgb2hsl (r, g, b) with ⟨hq, sq, lq⟩
  exact ⟨contrastLum_dark_bounds hq sq lq boost, contrastLum_light_bounds hq sq lq boost⟩

/-- JavaScript `Map.set`: an existing key keeps its position and gets the
new value; a new key is appended, `Map` iteration following insertion
order. -/
def mapSet (m : List (String × SwatchSet)) (key : String) (v : SwatchSet) :
    List (String × SwatchSet) :=
  if m.any (fun p => p.1 == key) then
    m.map (fun p => if p.1 == key then (key, v) else p)
  else m ++ [(key, v)]

/-- JavaScript `Map.delete`: removes the entry with the given key. -/
def mapDelete (m : List (String × SwatchSet)) (key : String) :
    List (String × SwatchSet) :=
  m.filter (fun p => !(p.1 == key))

/-- The result-cache store of `getSwatchesFromImage`
(`src/color-utils.js` lines 214-220): `swatchCache.set(cacheKey,
swatches)` followed by the size check `> 50` and deletion of
`swatchCache.keys().next().value`, the first (oldest-inserted) key. -/
def swatchCacheStore (m : List (String × SwatchSet)) (key : String) (v : SwatchSet) :
    List (String × SwatchSet) :=
  let m1 := mapSet m key v
  if m1.length > 50 then
    match m1.head? with
    | some oldest => mapDelete m1 oldest.1
    | none => m1
  else m1

/-- Assigning a key grows a map by at most one entry. -/
theorem mapSet_length (m : List (String × SwatchSet)) (key : String) (v : SwatchSet) :
    (mapSet m key v).length ≤ m.length + 1 := by
  unfold mapSet
  split_ifs <;> simp

/-- C8: the extraction-result cache obeys strict insertion-order FIFO
eviction with capacity 50: inserting a 51st distinct image key evicts
exactly the single oldest-inserted entry, leaving the other 49 previous
entries and the new entry; and a store never leaves more than 50
entries. -/
theorem swatch_cache_fifo :
    (∀ (m : List (String × SwatchSet)) (key : String) (v : SwatchSet),
      (m.map Prod.fst).Nodup → key ∉ m.map Prod.fst → m.length = 50 →
      swatchCacheStore m key v = m.drop 1 ++ [(key, v)]) ∧
    (∀ (m : List (String × SwatchSet)) (key : String) (v : SwatchSet),
      m.length ≤ 50 → (swatchCacheStore m key v).length ≤ 50) := by
  constructor
  · intro m key v hnodup hfresh hlen
    have hany : m.any (fun p => p.1 == key) = false := by
      rw [List.any_eq_false]
      intro p hp
      simp only [beq_iff_eq]
      intro hpk
      exact hfresh (hpk ▸ List.mem_map_of_mem Prod.fst hp)
    have hset : mapSet m key v = m ++ [(key, v)] := by
      unfold mapSet
      rw [hany]
      rfl
    rcases m with _ | ⟨p, rest⟩
    · simp at hlen
    · simp only [List.length_cons] at hlen
      simp only [swatchCacheStore, hset]
      have hlen1 : ((p :: rest) ++ [(key, v)]).length > 50 := by
        simp only [List.length_append, List.length_cons]
        omega
      rw [if_pos hlen1]
      simp only [List.cons_append, List.head?_cons]
      unfold mapDelete
      rw [List.filter_cons]
      simp only [beq_self_eq_true, Bool.not_true, Bool.false_eq_true, if_false]
      have hrest : (rest ++ [(key, v)]).filter (fun q => !(q.1 == p.1)) =
          rest ++ [(key, v)] := by
        rw [List.filter_eq_self]
        intro q hq
        simp only [Bool.not_eq_true', beq_eq_false_iff_ne, ne_eq]
        rcases List.mem_append.mp hq with hq1 | hq2
        · intro hqp
          simp only [List.map_cons, List.nodup_cons] at hnodup
          exact hnodup.1 (hqp ▸ List.mem_map_of_mem Prod.fst hq1)
        · rcases List.mem_singleton.mp hq2 with rfl
          intro hkp
          apply hfresh
          have hkp2 : key = p.1 := hkp
          rw [hkp2]
          exact List.mem_map_of_mem Prod.fst (List.mem_cons_self p rest)
      simpa using hrest
  · intro m key v hlen
    have hm1 := mapSet_length m key v
    simp only [swatchCacheStore]
    split_ifs with hbig
    · rcases hcons : mapSet m key v with _ | ⟨q, t⟩
      · rw [hcons] at hbig
        simp at hbig
      · rw [hcons] at hm1
        simp only [List.head?_cons]
        unfold mapDelete
        rw [List.filter_cons]
        simp only [beq_self_eq_true, Bool.not_true, Bool.false_eq_true, if_false]
        have hfl := List.length_filter_le (fun p => !(p.1 == q.1)) t
        simp only [List.length_cons] at hm1
        omega
    · omega

/-- A concrete 50-entry cache with distinct keys, for exercising the
FIFO store. -/
def sampleCache50 : List (String × SwatchSet) :=
  (List.range 50).map (fun i => (toString i, SwatchSet.empty))

/-- C8 witness: storing a 51st distinct key into the concrete 50-entry
cache drops exactly the oldest entry and appends the new one. -/
theorem swatch_cache_fifo_witness :
    swatchCacheStore sampleCache50 "fresh" SwatchSet.empty =
      sampleCache50.drop 1 ++ [("fresh", SwatchSet.empty)] :=
  swatch_cache_fifo.1 sampleCache50 "fresh" SwatchSet.empty
    (by decide) (by decide) (by decide)

/-- State of the final-color cache in `src/index.js`: the
`avatarColorCache` object (an insertion-ordered association list, as
JavaScript preserves string-key insertion order) and the
`cacheInsertionOrder` array.  Cached `ExColor` values are modelled by
their RGB triple. -/
structure ColorCacheState where
  cache : List (String × RGB)
  order : List String
deriving DecidableEq

/-- JavaScript object property assignment: an existing key keeps its
position and gets the new value; a new key is appended. -/
def objSet (cache : List (String × RGB)) (key : String) (v : RGB) :
    List (String × RGB) :=
  if cache.any (fun p => p.1 == key) then
    cache.map (fun p => if p.1 == key then (key, v) else p)
  else cache ++ [(key, v)]

/-- JavaScript `delete obj[key]`: removes the entry with the given key. -/
def objDelete (cache : List (String × RGB)) (key : String) :
    List (String × RGB) :=
  cache.filter (fun p => !(p.1 == key))

/-- The eviction loop of `enforceCacheLimit` (`src/index.js` lines
276-284): up to `n` times, shift the oldest key off
`cacheInsertionOrder` and delete it from the cache, stopping early when
the order list is empty. -/
def evictLoop : Nat → ColorCacheState → ColorCacheState
  | 0, st => st
  | n + 1, st =>
    match st.order with
    | [] => st
    | oldest :: rest => evictLoop n ⟨objDelete st.cache oldest, rest⟩

/-- Embedding of `enforceCacheLimit` from `src/index.js` (lines 272-285):
when the entry count exceeds `MAX_CACHE_SIZE` (100), remove
`Math.floor(MAX_CACHE_SIZE * 0.2)` oldest entries; that float product is
exactly 20 (the double nearest to 100 × 0.2 is 20). -/
def enforceCacheLimit (st : ColorCacheState) : ColorCacheState :=
  if st.cache.length > 100 then evictLoop 20 st else st

/-- Embedding of `addToCache` from `src/index.js` (lines 292-296):
assign the entry, push the key onto the insertion-order list, then
enforce the size limit. -/
def addToCache (st : ColorCacheState) (key : String) (v : RGB) : ColorCacheState :=
  enforceCacheLimit ⟨objSet st.cache key v, st.order ++ [key]⟩

/-- When the insertion-order list mirrors the cache keys and keys are
distinct, the eviction loop removes exactly the `n` oldest entries from
both structures. -/
theorem evictLoop_eq (n : Nat) (cache : List (String × RGB)) (order : List String)
    (horder : order = cache.map Prod.fst) (hnodup : (cache.map Prod.fst).Nodup)
    (hlen : n ≤ cache.length) :
    evictLoop n ⟨cache, order⟩ = ⟨cache.drop n, order.drop n⟩ := by
  induction n generalizing cache order with
  | zero => simp [evictLoop]
  | succ k ih =>
    rcases cache with _ | ⟨p, rest⟩
    · simp at hlen
    · subst horder
      simp only [List.map_cons, evictLoop]
      have hdel : objDelete (p :: rest) p.1 = rest := by
        unfold objDelete
        rw [List.filter_cons]
        simp only [beq_self_eq_true, Bool.not_true, Bool.false_eq_true, if_false]
        rw [List.filter_eq_self]
        intro q hq
        simp only [Bool.not_eq_true', beq_eq_false_iff_ne, ne_eq]
        intro hqp
        simp only [List.map_cons, List.nodup_cons] at hnodup
        exact hnodup.1 (hqp ▸ List.mem_map_of_mem Prod.fst hq)
      rw [hdel, ih rest (rest.map Prod.fst) rfl ?_ ?_]
      · simp
      · simp only [List.map_cons, List.nodup_cons] at hnodup
        exact hnodup.2
      · simp only [List.length_cons] at hlen
        omega

/-- C9: the final-color cache enforces its maximum size of 100 with
batched eviction: when an insertion makes the entry count exceed 100,
exactly the 20 oldest entries in insertion order are evicted in one
pass; and no entry is evicted while the count stays at most 100. -/
theorem final_color_cache_eviction :
    (∀ (st : ColorCacheState) (key : String) (v : RGB),
      st.order = st.cache.map Prod.fst → (st.cache.map Prod.fst).Nodup →
      key ∉ st.cache.map Prod.fst → st.cache.length ≥ 100 →
      addToCache st key v =
        ⟨(st.cache ++ [(key, v)]).drop 20, (st.order ++ [key]).drop 20⟩) ∧
    (∀ (st : ColorCacheState) (key : String) (v : RGB),
      key ∉ st.cache.map Prod.fst → st.cache.length + 1 ≤ 100 →
      addToCache st key v = ⟨st.cache ++ [(key, v)], st.order ++ [key]⟩) := by
  have happend : ∀ (cache : List (String × RGB)) (key : String) (v : RGB),
      key ∉ cache.map Prod.fst → objSet cache key v = cache ++ [(key, v)] := by
    intro cache key v hfresh
    have hany : cache.any (fun p => p.1 == key) = false := by
      rw [List.any_eq_false]
      intro p hp
      simp only [beq_iff_eq]
      intro hpk
      exact hfresh (hpk ▸ List.mem_map_of_mem Prod.fst hp)
    unfold objSet
    rw [hany]
    rfl
  constructor
  · intro st key v horder hnodup hfresh hlen
    unfold addToCache enforceCacheLimit
    rw [happend st.cache key v hfresh]
    have hbig : (st.cache ++ [(key, v)]).length > 100 := by
      simp only [List.length_append, List.length_cons, List.length_nil]
      omega
    rw [if_pos hbig]
    rw [evictLoop_eq 20 (st.cache ++ [(key, v)]) (st.order ++ [key]) ?_ ?_ ?_]
    · rw [List.map_append, ← horder]
      rfl
    · rw [List.map_append]
      simp only [List.map_cons, List.map_nil]
      rw [List.nodup_append]
      refine ⟨hnodup, List.nodup_singleton key, ?_⟩
      intro a ha hak
      rw [List.mem_singleton] at hak
      subst hak
      exact hfresh ha
    · simp only [List.length_append, List.length_cons, List.length_nil]
      omega
  · intro st key v hfresh hlen
    unfold addToCache enforceCacheLimit
    rw [happend st.cache key v hfresh]
    rw [if_neg]
    simp only [List.length_append, List.length_cons, List.length_nil]
    omega

/-- A concrete full final-color cache state with 100 distinct keys. -/
def sampleColorCache100 : ColorCacheState :=
  ⟨(List.range 100).map (fun i => (toString i, ((0:ℚ), (0:ℚ), (0:ℚ)))),
   (List.range 100).map (fun i => toString i)⟩

/-- C9 witness: the 101st distinct insertion into the concrete full cache
evicts exactly the 20 oldest entries in one pass. -/
theorem final_color_cache_eviction_witness :
    addToCache sampleColorCache100 "fresh" ((0:ℚ), (0:ℚ), (0:ℚ)) =
      ⟨(sampleColorCache100.cache ++ [("fresh", ((0:ℚ), (0:ℚ), (0:ℚ)))]).drop 20,
       (sampleColorCache100.order ++ ["fresh"]).drop 20⟩ :=
  final_color_cache_eviction.1 sampleColorCache100 "fresh" ((0:ℚ), (0:ℚ), (0:ℚ))
    (by decide) (by decide) (by decide) (by decide)

/-- The Color Thief fallback branch of `getSwatchesFromImage`
(`src/color-utils.js` lines 190-212): build the classified fallback
swatches and merge them under the Vibrant.js results; any throw inside
the branch (a null, non-array, or empty palette) is caught, logged, and
leaves the Vibrant.js swatches unchanged. -/
def runFallback (swatches : SwatchSet) (palette : Option (List RGB)) : SwatchSet :=
  match getColorThiefSwatches palette with
  | .ok colorThiefSwatches => mergeSwatches swatches colorThiefSwatches
  | .error _ => swatches

/-- The extraction body of `getSwatchesFromImage` (the `processPromise`
function, `src/color-utils.js` lines 172-227), with the two extractor
calls abstracted as parameters: `primary` is the outcome of the canvas
downscaling plus the Vibrant.js calls (lines 174-178, not guarded by any
catch — an error models a throw there), and `palette` is the Color Thief
palette (`none` modelling a null/non-array return). -/
def runExtraction (primary : Except Unit SwatchSet) (palette : Option (List RGB)) :
    Except Unit SwatchSet :=
  match primary with
  | .error e => .error e
  | .ok swatches =>
    .ok (if isMissingSwatches swatches then runFallback swatches palette else swatches)

/-- `getSmartAvatarColor` (`src/color-utils.js` lines 314-332) given the
extraction outcome for the image: awaiting a rejected extraction promise
rejects the promise of the caller; a fulfilled one feeds the selection. -/
def getSmartAvatarColorModel (primary : Except Unit SwatchSet)
    (palette : Option (List RGB)) : Except Unit (Option RGB) :=
  (runExtraction primary palette).map selectSmartColor

/-- C2 counterexample: when the primary extractor throws, the promise of
`getSmartAvatarColor` rejects instead of settling with an RGB triple or
null — the claimed "any failure of an extractor is caught" is false for
the primary extractor, whose failure region has no catch. -/
theorem smart_color_rejects_on_primary_failure :
    getSmartAvatarColorModel (.error ()) (some [((128:ℚ), (64:ℚ), (64:ℚ))]) = .error () := rfl

/-- C2 amended: whenever the primary extractor succeeds,
`getSmartAvatarColor` settles with an RGB triple or null for every
fallback behavior; a fallback failure — a null return or an empty
palette — is caught and the pipeline proceeds with exactly the primary
swatches.  Only a primary-extractor failure rejects the promise. -/
theorem smart_color_settles_on_primary_success :
    ∀ (swatches : SwatchSet) (palette : Option (List RGB)),
      (∃ colorResult, getSmartAvatarColorModel (.ok swatches) palette = .ok colorResult) ∧
      runExtraction (.ok swatches) none = .ok swatches ∧
      runExtraction (.ok swatches) (some []) = .ok swatches := by
  intro swatches palette
  refine ⟨⟨_, rfl⟩, ?_, ?_⟩ <;>
    cases h : isMissingSwatches swatches <;>
      simp [runExtraction, runFallback, getColorThiefSwatches, h]

/-- State of the two module-level maps of `src/color-utils.js`:
`swatchCache` and `pendingSwatches`.  Pending values are promises; the
in-flight invariant only concerns which keys are present, so the pending
map is modelled by its key list (in insertion order). -/
structure ExtractState where
  swatchCache : List (String × SwatchSet)
  pendingSwatches : List String
deriving DecidableEq

/-- One full execution of `getSwatchesFromImage` (`src/color-utils.js`
lines 160-231) after the awaited image load, at event-loop level.  The
async IIFE that creates `processPromise` contains no `await`, so calling
it runs its entire body — including the `finally` clause that deletes the
pending entry — synchronously, and the promise is already settled when
`pendingSwatches.set(cacheKey, processPromise)` executes on line 229.
`outcome` abstracts the body result: `.ok` carries the swatch
dictionary it computes and returns, `.error` models a throw from the
unguarded region before the cache store (canvas creation or the
Vibrant.js calls).  The returned state is the state once the call
returns, which is after the promise has settled. -/
def getSwatchesFromImageRun (st : ExtractState) (cacheKey : String)
    (outcome : Except Unit SwatchSet) : ExtractState :=
  if st.swatchCache.any (fun p => p.1 == cacheKey) then st
  else if st.pendingSwatches.contains cacheKey then st
  else
    let afterBody :=
      match outcome with
      | .ok swatches =>
        { st with swatchCache := swatchCacheStore st.swatchCache cacheKey swatches }
      | .error _ => st
    let afterFinally :=
      { afterBody with
        pendingSwatches := afterBody.pendingSwatches.filter (fun k => !(k == cacheKey)) }
    { afterFinally with
      pendingSwatches := afterFinally.pendingSwatches ++ [cacheKey] }

/-- C1: the in-flight map is NOT empty of the key once the extraction
promise has settled — the extraction body runs synchronously to
completion (settling the promise) before the entry is registered, so the
`finally` cleanup deletes nothing and the entry persists indefinitely;
this contradicts the claimed invariant on the first call for any image,
whether extraction succeeds or throws, and a repeated call does not
remove it either. -/
theorem pending_entry_persists_after_settlement :
    (getSwatchesFromImageRun ⟨[], []⟩ "avatar.png" (.ok SwatchSet.empty)).pendingSwatches
      = ["avatar.png"] ∧
    (getSwatchesFromImageRun ⟨[], []⟩ "avatar.png" (.error ())).pendingSwatches
      = ["avatar.png"] ∧
    (getSwatchesFromImageRun
        (getSwatchesFromImageRun ⟨[], []⟩ "avatar.png" (.ok SwatchSet.empty))
        "avatar.png" (.ok SwatchSet.empty)).pendingSwatches
      = ["avatar.png"] := by
  refine ⟨rfl, rfl, rfl⟩

end SDC
